import Mathlib

/-!
# Verification of the Polyfolio data-acquisition and aggregation pipeline

Shallow embedding of `app.js` (Polymarket portfolio dashboard).  Machine
numbers (JS `Number`) are modelled as rationals `ℚ`; fallible network calls
are modelled as `Option`/`Except` values supplied by an abstract `server`
function mapping a request offset to its response (`none` = the request
rejected or the response had an unrecognized shape — both take the same
`break` path in `fetchAllPages`).
-/

namespace Polyfolio

/-! ## Endpoint configuration (`ENDPOINT_CONFIG`, app.js lines 21–26) -/

/-- One entry of `ENDPOINT_CONFIG`: a per-endpoint page size (`limit`)
and offset ceiling (`maxOffset`). -/
structure EndpointConfig where
  limit : Nat
  maxOffset : Nat
deriving DecidableEq, Repr

def configPositions : EndpointConfig := ⟨500, 100000⟩

def configClosedPositions : EndpointConfig := ⟨50, 100000⟩

def configTrades : EndpointConfig := ⟨10000, 10000⟩

def configActivity : EndpointConfig := ⟨500, 10000⟩

/-- The four configured endpoints of `ENDPOINT_CONFIG`. -/
def endpointConfigs : List EndpointConfig :=
  [configPositions, configClosedPositions, configTrades, configActivity]

/-! ## The paginator (`fetchAllPages`, app.js lines 173–200)

The JS loop is

```
while (offset <= maxOffset) {
  try { raw = await fetchJSON(path); } catch (_) { break; }
  const batch = unwrapArray(raw);
  if (!batch) break;
  all = all.concat(batch);
  if (batch.length < limit) break;
  offset += limit;
}
return all;
```

We embed it as structural recursion on a fuel counter and additionally
record the trace of offsets at which a request was issued.  Because every
iteration that recurses advances `offset` by `limit ≥ 1`, a fuel of
`maxOffset + 1` can never run out before the loop guard
`offset ≤ maxOffset` fails, so the fuel is an exact model of the loop
whenever the page size is positive (all four configured page sizes are). -/

/-- One run of the pagination loop from a given `offset`, returning the
accumulated rows and the list of offsets requested.  `server offset = none`
models a rejected request (or an unrecognized response shape): the loop
breaks and returns what has accumulated, issuing no further requests. -/
def fetchPagesFuel {α : Type} (limit maxOffset : Nat) (server : Nat → Option (List α)) :
    Nat → Nat → List α × List Nat
  | 0, _ => ([], [])
  | fuel + 1, offset =>
    if offset ≤ maxOffset then
      match server offset with
      | none => ([], [offset])
      | some batch =>
        if batch.length < limit then (batch, [offset])
        else
          let r := fetchPagesFuel limit maxOffset server fuel (offset + limit)
          (batch ++ r.1, offset :: r.2)
    else ([], [])

/-- `fetchAllPages` — the rows the paginator resolves with.  It has type
`List α`, not `Except`: the source's internal `try/catch` means the
returned promise never rejects. -/
def fetchAllPages {α : Type} (limit maxOffset : Nat) (server : Nat → Option (List α)) :
    List α :=
  (fetchPagesFuel limit maxOffset server (maxOffset + 1) 0).1

/-- The offsets at which `fetchAllPages` issues requests, in order. -/
def fetchTrace {α : Type} (limit maxOffset : Nat) (server : Nat → Option (List α)) :
    List Nat :=
  (fetchPagesFuel limit maxOffset server (maxOffset + 1) 0).2

/-- A well-behaved upstream source serving a fixed page sequence: the
request at offset `o` returns page number `o / limit`. -/
def pagedServer {α : Type} (limit : Nat) (pages : Nat → List α) : Nat → Option (List α) :=
  fun offset => some (pages (offset / limit))

/-- An upstream source that serves pages `0 … k-1` and rejects the request
for page `k` (and beyond). -/
def pagedServerFailAt {α : Type} (limit k : Nat) (pages : Nat → List α) :
    Nat → Option (List α) :=
  fun offset => if offset / limit < k then some (pages (offset / limit)) else none

/-! ### Paginator lemmas -/

/-- Running the loop against `pagedServer` when pages `0 … k-1` are full
(`limit` rows) and page `k` is short: starting at page `j` with `n` full
pages left, the loop consumes pages `j … k` and requests exactly offsets
`j·limit … k·limit`. -/
theorem fetchPagesFuel_pagedServer {α : Type} (limit maxOffset k : Nat) (pages : Nat → List α)
    (hl : 0 < limit)
    (hfull : ∀ i, i < k → (pages i).length = limit)
    (hshort : (pages k).length < limit)
    (hoff : k * limit ≤ maxOffset) :
    ∀ n j fuel, j + n = k → n < fuel →
      fetchPagesFuel limit maxOffset (pagedServer limit pages) fuel (j * limit) =
        (((List.range' j (n + 1)).map pages).flatten,
          (List.range' j (n + 1)).map (· * limit)) := by
  intro n
  induction n with
  | zero =>
    intro j fuel hjk hfuel
    obtain rfl : j = k := by omega
    obtain ⟨f, rfl⟩ : ∃ f, fuel = f + 1 := ⟨fuel - 1, by omega⟩
    simp only [fetchPagesFuel, if_pos hoff, pagedServer, Nat.mul_div_cancel j hl,
      if_pos hshort, List.range'_succ, List.range'_zero, List.map_cons, List.map_nil,
      List.flatten_cons, List.flatten_nil, List.append_nil]
  | succ n ih =>
    intro j fuel hjk hfuel
    obtain ⟨f, rfl⟩ : ∃ f, fuel = f + 1 := ⟨fuel - 1, by omega⟩
    have hjlt : j < k := by omega
    have hoffj : j * limit ≤ maxOffset :=
      le_trans (Nat.mul_le_mul_right limit (by omega)) hoff
    have hnotshort : ¬(pages j).length < limit := by
      rw [hfull j hjlt]; omega
    have hrec := ih (j + 1) f (by omega) (by omega)
    rw [Nat.succ_mul] at hrec
    simp only [fetchPagesFuel, if_pos hoffj, pagedServer, Nat.mul_div_cancel j hl,
      if_neg hnotshort, hrec, List.range'_succ, List.map_cons, List.flatten_cons]

/-- C3 core: against a source whose pages `0 … k-1` are full and whose page
`k` is short, the paginator returns exactly the concatenation of pages
`0 … k` and requests exactly offsets `0, limit, …, k·limit`. -/
theorem fetch_stops_on_short_page {α : Type} (limit maxOffset k : Nat) (pages : Nat → List α)
    (hl : 0 < limit)
    (hfull : ∀ i, i < k → (pages i).length = limit)
    (hshort : (pages k).length < limit)
    (hoff : k * limit ≤ maxOffset) :
    fetchAllPages limit maxOffset (pagedServer limit pages) =
        ((List.range (k + 1)).map pages).flatten ∧
      fetchTrace limit maxOffset (pagedServer limit pages) =
        (List.range (k + 1)).map (· * limit) := by
  have hk : k ≤ maxOffset := le_trans (Nat.le_mul_of_pos_right k hl) hoff
  have h := fetchPagesFuel_pagedServer limit maxOffset k pages hl hfull hshort hoff
    k 0 (maxOffset + 1) (by omega) (by omega)
  rw [zero_mul] at h
  exact ⟨by simp only [fetchAllPages, h, List.range_eq_range'],
    by simp only [fetchTrace, h, List.range_eq_range']⟩

/-- Loop analysis for a source that rejects the request for page `k` after
serving full pages `0 … k-1`. -/
theorem fetchPagesFuel_failAt {α : Type} (limit maxOffset k : Nat) (pages : Nat → List α)
    (hl : 0 < limit)
    (hfull : ∀ i, i < k → (pages i).length = limit)
    (hoff : k * limit ≤ maxOffset) :
    ∀ n j fuel, j + n = k → n < fuel →
      fetchPagesFuel limit maxOffset (pagedServerFailAt limit k pages) fuel (j * limit) =
        (((List.range' j n).map pages).flatten,
          (List.range' j (n + 1)).map (· * limit)) := by
  intro n
  induction n with
  | zero =>
    intro j fuel hjk hfuel
    obtain rfl : j = k := by omega
    obtain ⟨f, rfl⟩ : ∃ f, fuel = f + 1 := ⟨fuel - 1, by omega⟩
    simp only [fetchPagesFuel, if_pos hoff, pagedServerFailAt, Nat.mul_div_cancel j hl,
      if_neg (lt_irrefl j), List.range'_succ, List.range'_zero, List.map_cons, List.map_nil,
      List.flatten_nil]
  | succ n ih =>
    intro j fuel hjk hfuel
    obtain ⟨f, rfl⟩ : ∃ f, fuel = f + 1 := ⟨fuel - 1, by omega⟩
    have hjlt : j < k := by omega
    have hoffj : j * limit ≤ maxOffset :=
      le_trans (Nat.mul_le_mul_right limit (by omega)) hoff
    have hnotshort : ¬(pages j).length < limit := by
      rw [hfull j hjlt]; omega
    have hrec := ih (j + 1) f (by omega) (by omega)
    rw [Nat.succ_mul] at hrec
    simp only [fetchPagesFuel, if_pos hoffj, pagedServerFailAt, Nat.mul_div_cancel j hl,
      if_pos hjlt, if_neg hnotshort, hrec, List.range'_succ, List.map_cons, List.flatten_cons]

/-- C6 core: if the request for page `k` fails after full pages `0 … k-1`,
the paginator resolves (it does not reject — its type is `List α`) with the
rows accumulated from the earlier pages, and the failing offset is
requested exactly once, with no request after it. -/
theorem fetch_failed_page_truncates {α : Type} (limit maxOffset k : Nat) (pages : Nat → List α)
    (hl : 0 < limit)
    (hfull : ∀ i, i < k → (pages i).length = limit)
    (hoff : k * limit ≤ maxOffset) :
    fetchAllPages limit maxOffset (pagedServerFailAt limit k pages) =
        ((List.range k).map pages).flatten ∧
      fetchTrace limit maxOffset (pagedServerFailAt limit k pages) =
        (List.range (k + 1)).map (· * limit) := by
  have hk : k ≤ maxOffset := le_trans (Nat.le_mul_of_pos_right k hl) hoff
  have h := fetchPagesFuel_failAt limit maxOffset k pages hl hfull hoff
    k 0 (maxOffset + 1) (by omega) (by omega)
  rw [zero_mul] at h
  exact ⟨by simp only [fetchAllPages, h, List.range_eq_range'],
    by simp only [fetchTrace, h, List.range_eq_range']⟩

/-- The number of requests issued from `offset` is at most
`(maxOffset - offset) / limit + 1`, for any fuel and any source. -/
theorem fetchPagesFuel_trace_length {α : Type} (limit maxOffset : Nat)
    (server : Nat → Option (List α)) (hl : 0 < limit) :
    ∀ fuel offset, (fetchPagesFuel limit maxOffset server fuel offset).2.length ≤
      (maxOffset - offset) / limit + 1 := by
  intro fuel
  induction fuel with
  | zero => intro offset; simp [fetchPagesFuel]
  | succ f ih =>
    intro offset
    by_cases hoff : offset ≤ maxOffset
    · simp only [fetchPagesFuel, if_pos hoff]
      cases hs : server offset with
      | none => simp
      | some batch =>
        by_cases hb : batch.length < limit
        · simp [hb]
        · simp only [if_neg hb, List.length_cons]
          rcases le_or_lt (offset + limit) maxOffset with hle | hgt
          · have h2 := ih (offset + limit)
            rw [show maxOffset - (offset + limit) = maxOffset - offset - limit by omega] at h2
            have hdiv : (maxOffset - offset) / limit = (maxOffset - offset - limit) / limit + 1 :=
              Nat.div_eq_sub_div hl (by omega)
            omega
          · cases f with
            | zero => simp [fetchPagesFuel]
            | succ f' => simp [fetchPagesFuel, Nat.not_le.mpr hgt]
    · simp [fetchPagesFuel, hoff]

/-- C4 core: pagination terminates within `⌈maxOffset / limit⌉ + 1`
requests, for any source — even one that always returns a full page. -/
theorem fetch_request_bound {α : Type} (limit maxOffset : Nat)
    (server : Nat → Option (List α)) (hl : 0 < limit) :
    (fetchTrace limit maxOffset server).length ≤ (maxOffset + limit - 1) / limit + 1 := by
  have h := fetchPagesFuel_trace_length limit maxOffset server hl (maxOffset + 1) 0
  rw [Nat.sub_zero] at h
  have h2 : maxOffset / limit ≤ (maxOffset + limit - 1) / limit :=
    Nat.div_le_div_right (by omega)
  calc (fetchTrace limit maxOffset server).length ≤ maxOffset / limit + 1 := h
    _ ≤ (maxOffset + limit - 1) / limit + 1 := by omega

/-- Every offset the loop requests lies between the starting offset and
`maxOffset`, and is reached by whole `limit`-sized steps. -/
theorem fetchPagesFuel_trace_mem {α : Type} (limit maxOffset : Nat)
    (server : Nat → Option (List α)) :
    ∀ fuel offset o, o ∈ (fetchPagesFuel limit maxOffset server fuel offset).2 →
      offset ≤ o ∧ o ≤ maxOffset ∧ limit ∣ o - offset := by
  intro fuel
  induction fuel with
  | zero => intro offset o h; simp [fetchPagesFuel] at h
  | succ f ih =>
    intro offset o h
    by_cases hoff : offset ≤ maxOffset
    · simp only [fetchPagesFuel, if_pos hoff] at h
      cases hs : server offset with
      | none =>
        rw [hs] at h
        simp only [List.mem_singleton] at h
        subst h
        exact ⟨le_refl o, hoff, by simp⟩
      | some batch =>
        rw [hs] at h
        dsimp only at h
        by_cases hb : batch.length < limit
        · rw [if_pos hb] at h
          simp only [List.mem_singleton] at h
          subst h
          exact ⟨le_refl o, hoff, by simp⟩
        · rw [if_neg hb] at h
          simp only [List.mem_cons] at h
          rcases h with rfl | h
          · exact ⟨le_refl o, hoff, by simp⟩
          · have h3 := ih (offset + limit) o h
            obtain ⟨c, hc⟩ := h3.2.2
            refine ⟨by omega, h3.2.1, ⟨c + 1, ?_⟩⟩
            rw [Nat.mul_succ]
            have := h3.1
            omega
    · simp [fetchPagesFuel, hoff] at h

/-- C5 core: for every configured endpoint and every source, the paginator
never requests an offset above that endpoint's configured ceiling, and every
requested offset is a multiple of the page size (`0, limit, 2·limit, …`). -/
theorem fetch_offset_within_ceiling (cfg : EndpointConfig) (hcfg : cfg ∈ endpointConfigs)
    {α : Type} (server : Nat → Option (List α)) (o : Nat)
    (ho : o ∈ fetchTrace cfg.limit cfg.maxOffset server) :
    o ≤ cfg.maxOffset ∧ cfg.limit ∣ o := by
  have h := fetchPagesFuel_trace_mem cfg.limit cfg.maxOffset server
    (cfg.maxOffset + 1) 0 o ho
  exact ⟨h.2.1, by simpa using h.2.2⟩

/-! ### Concrete paginator scenarios -/

/-- A tiny concrete page sequence: a full page `[1, 2]`, then a short page
`[3]` (page size 2). -/
def pagesShortAt1 : Nat → List Nat := fun i =>
  if i = 0 then [1, 2] else if i = 1 then [3] else []

/-- A page sequence ending in an exactly-empty terminal page: one full page
`[1, 2]`, then a zero-row page (page size 2). -/
def pagesEmptyAt1 : Nat → List Nat := fun i => if i = 0 then [1, 2] else []

/-- Witness for C3: with page size 2, a full page `[1, 2]` followed by a
short page `[3]` yields `[1, 2, 3]` after exactly two requests (offsets 0
and 2); a terminal zero-row page after `[1, 2]` likewise ends pagination
normally with result `[1, 2]`. -/
theorem fetch_stops_on_short_page_witness :
    (fetchAllPages 2 10 (pagedServer 2 pagesShortAt1) = [1, 2, 3] ∧
        fetchTrace 2 10 (pagedServer 2 pagesShortAt1) = [0, 2]) ∧
      fetchAllPages 2 10 (pagedServer 2 pagesEmptyAt1) = [1, 2] ∧
        fetchTrace 2 10 (pagedServer 2 pagesEmptyAt1) = [0, 2] := by
  have h1 := fetch_stops_on_short_page 2 10 1 pagesShortAt1 (by decide)
    (by intro i hi; obtain rfl : i = 0 := (by omega); decide) (by decide) (by decide)
  have h2 := fetch_stops_on_short_page 2 10 1 pagesEmptyAt1 (by decide)
    (by intro i hi; obtain rfl : i = 0 := (by omega); decide) (by decide) (by decide)
  exact ⟨⟨by rw [h1.1]; decide, by rw [h1.2]; decide⟩,
    by rw [h2.1]; decide, by rw [h2.2]; decide⟩

/-- Witness for C4: an endpoint with page size 2 and offset ceiling 5,
against a source that always returns a full page, issues at most
`⌈5 / 2⌉ + 1` requests. -/
theorem fetch_request_bound_witness :
    (fetchTrace 2 5 (fun _ => some [true, false])).length ≤ (5 + 2 - 1) / 2 + 1 :=
  fetch_request_bound 2 5 (fun _ => some [true, false]) (by decide)

/-- Witness for C5: offset 0 is requested from the open-positions endpoint
and satisfies the invariant. -/
theorem fetch_offset_within_ceiling_witness :
    (0 : Nat) ≤ configPositions.maxOffset ∧ configPositions.limit ∣ 0 :=
  fetch_offset_within_ceiling configPositions (by decide)
    (fun _ => some ([] : List Nat)) 0 (by decide)

/-- Witness for C6: with page size 2, full pages `[0, 10]` and `[1, 11]`
followed by a failed request at offset 4 resolve with the four accumulated
rows; the failing offset is requested once and nothing after it. -/
theorem fetch_failed_page_truncates_witness :
    fetchAllPages 2 10 (pagedServerFailAt 2 2 (fun i => [i, 10 + i])) = [0, 10, 1, 11] ∧
      fetchTrace 2 10 (pagedServerFailAt 2 2 (fun i => [i, 10 + i])) = [0, 2, 4] := by
  have h := fetch_failed_page_truncates 2 10 2 (fun i => [i, 10 + i]) (by decide)
    (by intro i hi; rfl) (by decide)
  exact ⟨by rw [h.1]; decide, by rw [h.2]; decide⟩

/-! ## Data model and metrics calculator (`computeMetrics`, app.js lines 205–232) -/

/-- An open position row as used by `computeMetrics` and the allocation
renderer: `currentValue` and `cashPnl` (JS numbers, modelled as `ℚ`),
`title`/`outcome` strings and an optional market `slug`. -/
structure Position where
  title : String
  outcome : String
  slug : Option String
  currentValue : ℚ
  cashPnl : ℚ
deriving DecidableEq, Repr

/-- A closed position row: only its realized PnL is read by the metrics. -/
structure ClosedPosition where
  realizedPnl : ℚ
deriving DecidableEq, Repr

/-- A leaderboard row: only its `rank` field is read. -/
structure LeaderboardEntry where
  rank : Nat
deriving DecidableEq, Repr

/-- The slice of the shared snapshot (`lastData`) that `computeMetrics`
destructures. -/
structure SnapshotData where
  positions : List Position
  closedPositions : List ClosedPosition
  leaderboard : List LeaderboardEntry
deriving DecidableEq, Repr

/-- The record `computeMetrics` returns. -/
structure Metrics where
  rank : Option Nat
  totalValue : ℚ
  unrealizedPnl : ℚ
  realizedPnl : ℚ
  returnPct : ℚ
  winRate : ℚ
  activeCount : Nat
  closedCount : Nat
deriving DecidableEq, Repr

/-- `computeMetrics` (app.js lines 205–232), line for line: sums over the
open and closed positions, the win rate over closed positions with nonzero
realized PnL, the return percentage against the cost basis, and the first
leaderboard entry's rank. -/
def computeMetrics (data : SnapshotData) : Metrics :=
  let totalValue := (data.positions.map (·.currentValue)).sum
  let unrealizedPnl := (data.positions.map (·.cashPnl)).sum
  let realizedPnl := (data.closedPositions.map (·.realizedPnl)).sum
  let closedWithPnl := data.closedPositions.filter (fun p => p.realizedPnl ≠ 0)
  let wins := (closedWithPnl.filter (fun p => 0 < p.realizedPnl)).length
  let winRate : ℚ := if 0 < closedWithPnl.length then (wins : ℚ) / (closedWithPnl.length : ℚ) else 0
  let totalPnl := unrealizedPnl + realizedPnl
  let costBasis := totalValue - unrealizedPnl
  let returnPct := if 0 < costBasis then totalPnl / costBasis else 0
  { rank := data.leaderboard.head?.map (·.rank)
    totalValue := totalValue
    unrealizedPnl := unrealizedPnl
    realizedPnl := realizedPnl
    returnPct := returnPct
    winRate := winRate
    activeCount := data.positions.length
    closedCount := data.closedPositions.length }

/-- C7 core: whenever at least one closed position has nonzero realized
PnL, the win rate is the number of closed positions with strictly positive
realized PnL divided by the number with nonzero realized PnL — positions
with exactly zero realized PnL appear in neither count. -/
theorem computeMetrics_winRate (data : SnapshotData)
    (h : 0 < (data.closedPositions.filter (fun p => p.realizedPnl ≠ 0)).length) :
    (computeMetrics data).winRate =
      ((data.closedPositions.filter (fun p => 0 < p.realizedPnl)).length : ℚ) /
        ((data.closedPositions.filter (fun p => p.realizedPnl ≠ 0)).length : ℚ) := by
  have hwins : (data.closedPositions.filter (fun p => p.realizedPnl ≠ 0)).filter
      (fun p => 0 < p.realizedPnl) =
      data.closedPositions.filter (fun p => 0 < p.realizedPnl) := by
    rw [List.filter_filter]
    refine List.filter_congr ?_
    intro p _
    by_cases h0 : 0 < p.realizedPnl
    · simp [h0, ne_of_gt h0]
    · simp [h0]
  simp only [computeMetrics, if_pos h, hwins]

/-- Witness for C7: closed positions with realized PnL `1, 0, -2` give a
win rate of exactly `1 / 2` — the zero-PnL position is in neither the
numerator nor the denominator. -/
theorem computeMetrics_winRate_witness :
    (computeMetrics ⟨[], [⟨1⟩, ⟨0⟩, ⟨-2⟩], []⟩).winRate = 1 / 2 := by
  have h := computeMetrics_winRate ⟨[], [⟨1⟩, ⟨0⟩, ⟨-2⟩], []⟩ (by decide)
  rw [h]
  norm_num [List.filter]

/-- C10 core: when no closed position has nonzero realized PnL (in
particular when the closed-positions list is empty), the win rate is
exactly `0` — the guard `closedWithPnl.length > 0` prevents any division
by zero. -/
theorem computeMetrics_winRate_total (data : SnapshotData)
    (h : ∀ p ∈ data.closedPositions, p.realizedPnl = 0) :
    (computeMetrics data).winRate = 0 := by
  have hnil : data.closedPositions.filter (fun p => p.realizedPnl ≠ 0) = [] := by
    rw [List.filter_eq_nil_iff]
    intro p hp
    simp [h p hp]
  simp only [computeMetrics, hnil, List.length_nil, lt_self_iff_false, if_false]

/-- Witness for C10: the empty snapshot has win rate `0`. -/
theorem computeMetrics_winRate_total_witness :
    (computeMetrics ⟨[], [], []⟩).winRate = 0 :=
  computeMetrics_winRate_total ⟨[], [], []⟩ (by simp)

/-! ## Allocation bucketing (`buildPieData`, app.js lines 626–640, and the
preprocessing in `renderAllocationByPosition`, lines 646–659) -/

/-- One chart item as built by `renderAllocationByPosition`: a possibly
truncated display label, the full label, an optional market slug and the
position's current value. -/
structure PieItem where
  label : String
  fullLabel : String
  slug : Option String
  value : ℚ
deriving DecidableEq, Repr

/-- The parallel arrays `buildPieData` returns. -/
structure PieData where
  labels : List String
  fullLabels : List String
  slugs : List (Option String)
  values : List ℚ
deriving DecidableEq, Repr

/-- `i.fullLabel || i.label` — the JS fallback when `fullLabel` is falsy
(the empty string). -/
def pieFullLabel (i : PieItem) : String :=
  if i.fullLabel = "" then i.label else i.fullLabel

/-- `buildPieData` (app.js lines 626–640): at most `maxSlices` slices,
collapsing everything after the top `maxSlices - 1` into an `Other` bucket
whose value is the sum of the rest and whose full label lists them. -/
def buildPieData (items : List PieItem) (maxSlices : Nat) : PieData :=
  if items.length ≤ maxSlices then
    { labels := items.map (·.label)
      fullLabels := items.map pieFullLabel
      slugs := items.map (·.slug)
      values := items.map (·.value) }
  else
    let top := items.take (maxSlices - 1)
    let rest := items.drop (maxSlices - 1)
    let otherValue := (rest.map (·.value)).sum
    let otherNames := rest.map pieFullLabel
    { labels := top.map (·.label) ++ ["Other (" ++ toString rest.length ++ ")"]
      fullLabels := top.map pieFullLabel ++
        ["Other - [" ++ String.intercalate ", " otherNames ++ "]"]
      slugs := top.map (·.slug) ++ [none]
      values := top.map (·.value) ++ [otherValue] }

/-- The full label `(p.title || 'Unknown') + (p.outcome ? ' (outcome)' : '')`
built in `renderAllocationByPosition`. -/
def positionFullLabel (p : Position) : String :=
  (if p.title = "" then "Unknown" else p.title) ++
    (if p.outcome = "" then "" else " (" ++ p.outcome ++ ")")

/-- One mapped chart item of `renderAllocationByPosition` (label truncated
at 65 characters). -/
def toPieItem (p : Position) : PieItem :=
  let full := positionFullLabel p
  { label := if 65 < full.length then full.take 65 ++ "…" else full
    fullLabel := full
    slug := p.slug
    value := p.currentValue }

/-- The descending-by-value comparator `(a, b) => b.value - a.value` of the
JS sort, as an ordering relation. -/
def pieDesc (a b : PieItem) : Prop := b.value ≤ a.value

instance : DecidableRel pieDesc := fun a b =>
  inferInstanceAs (Decidable (b.value ≤ a.value))

instance : IsTotal PieItem pieDesc := ⟨fun a b => le_total b.value a.value⟩

instance : IsTrans PieItem pieDesc := ⟨fun _ _ _ h1 h2 => le_trans h2 h1⟩

/-- The sorted input `renderAllocationByPosition` hands to `buildPieData`:
positions mapped to chart items, restricted to positive value, sorted
descending by value. -/
def allocationItems (positions : List Position) : List PieItem :=
  List.insertionSort pieDesc ((positions.map toPieItem).filter (fun i => 0 < i.value))

/-- C8 core: the allocation input is the non-zero-value positions sorted
descending by value (values are nonnegative, so non-zero means positive);
when their count exceeds the cap, the result has exactly `cap` buckets —
the top `cap - 1` values individually plus an `Other` bucket summing the
rest, labelled with the count of collapsed items, and whose full label
lists the collapsed members — and the bucket values sum to the sum of all
input values. -/
theorem allocation_bucketing (positions : List Position) (cap : Nat)
    (hnn : ∀ p ∈ positions, 0 ≤ p.currentValue)
    (hcap : 0 < cap)
    (hlen : cap < (allocationItems positions).length) :
    List.Sorted pieDesc (allocationItems positions) ∧
    (allocationItems positions).Perm
      ((positions.map toPieItem).filter (fun i => i.value ≠ 0)) ∧
    (buildPieData (allocationItems positions) cap).values.length = cap ∧
    (buildPieData (allocationItems positions) cap).labels.length = cap ∧
    (buildPieData (allocationItems positions) cap).values =
      ((allocationItems positions).take (cap - 1)).map (·.value) ++
        [(((allocationItems positions).drop (cap - 1)).map (·.value)).sum] ∧
    (buildPieData (allocationItems positions) cap).labels =
      ((allocationItems positions).take (cap - 1)).map (·.label) ++
        ["Other (" ++ toString ((allocationItems positions).length - (cap - 1)) ++ ")"] ∧
    (buildPieData (allocationItems positions) cap).fullLabels =
      ((allocationItems positions).take (cap - 1)).map pieFullLabel ++
        ["Other - [" ++ String.intercalate ", "
          (((allocationItems positions).drop (cap - 1)).map pieFullLabel) ++ "]"] ∧
    (buildPieData (allocationItems positions) cap).values.sum =
      ((allocationItems positions).map (·.value)).sum := by
  have hfilter : (positions.map toPieItem).filter (fun i => 0 < i.value) =
      (positions.map toPieItem).filter (fun i => i.value ≠ 0) := by
    refine List.filter_congr ?_
    intro i hi
    obtain ⟨p, hp, rfl⟩ := List.mem_map.mp hi
    have h0 : (0 : ℚ) ≤ (toPieItem p).value := hnn p hp
    by_cases hv : (toPieItem p).value = 0
    · simp [hv]
    · have hpos : 0 < (toPieItem p).value := lt_of_le_of_ne h0 (Ne.symm hv)
      simp [hv, hpos]
  have hperm0 : (allocationItems positions).Perm
      ((positions.map toPieItem).filter (fun i => i.value ≠ 0)) := by
    rw [← hfilter]
    exact List.perm_insertionSort pieDesc _
  have hne : ¬((allocationItems positions).length ≤ cap) := by omega
  have hvals : (buildPieData (allocationItems positions) cap).values =
      ((allocationItems positions).take (cap - 1)).map (·.value) ++
        [(((allocationItems positions).drop (cap - 1)).map (·.value)).sum] := by
    simp only [buildPieData, if_neg hne]
  have hlabels : (buildPieData (allocationItems positions) cap).labels =
      ((allocationItems positions).take (cap - 1)).map (·.label) ++
        ["Other (" ++ toString ((allocationItems positions).length - (cap - 1)) ++ ")"] := by
    simp only [buildPieData, if_neg hne, List.length_drop]
  have hfullLabels : (buildPieData (allocationItems positions) cap).fullLabels =
      ((allocationItems positions).take (cap - 1)).map pieFullLabel ++
        ["Other - [" ++ String.intercalate ", "
          (((allocationItems positions).drop (cap - 1)).map pieFullLabel) ++ "]"] := by
    simp only [buildPieData, if_neg hne]
  refine ⟨List.sorted_insertionSort pieDesc _, hperm0, ?_, ?_, hvals, hlabels,
    hfullLabels, ?_⟩
  · rw [hvals]
    simp only [List.length_append, List.length_map, List.length_take,
      List.length_cons, List.length_nil]
    omega
  · rw [hlabels]
    simp only [List.length_append, List.length_map, List.length_take,
      List.length_cons, List.length_nil]
    omega
  · rw [hvals, List.sum_append, List.sum_cons, List.sum_nil, add_zero,
      List.map_take, List.map_drop, List.sum_take_add_sum_drop]

/-- The spec's worked example: five positions with values
`100, 80, 60, 40, 20`. -/
def positionsExample : List Position :=
  [⟨"A", "", none, 100, 0⟩, ⟨"B", "", none, 80, 0⟩, ⟨"C", "", none, 60, 0⟩,
    ⟨"D", "", none, 40, 0⟩, ⟨"E", "", none, 20, 0⟩]

/-- Witness for C8: values `[100, 80, 60, 40, 20]` with cap 3 yield exactly
3 buckets `[100, 80, 120]`, the third an aggregate of 3 items with count
label `Other (3)` and full label `Other - [C, D, E]` listing the collapsed
members, and the bucket values sum to 300. -/
theorem allocation_bucketing_witness :
    (buildPieData (allocationItems positionsExample) 3).values = [100, 80, 120] ∧
      (buildPieData (allocationItems positionsExample) 3).values.sum = 300 ∧
      (buildPieData (allocationItems positionsExample) 3).labels =
        ["A", "B", "Other (3)"] ∧
      (buildPieData (allocationItems positionsExample) 3).fullLabels =
        ["A", "B", "Other - [C, D, E]"] := by
  have h := allocation_bucketing positionsExample 3 (by decide) (by decide) (by decide)
  obtain ⟨-, -, -, -, hv, hl, hf, hs⟩ := h
  have e : allocationItems positionsExample =
      [⟨"A", "A", none, 100⟩, ⟨"B", "B", none, 80⟩, ⟨"C", "C", none, 60⟩,
        ⟨"D", "D", none, 40⟩, ⟨"E", "E", none, 20⟩] := by decide
  refine ⟨?_, ?_, ?_, ?_⟩
  · rw [hv, e]; norm_num
  · rw [hs, e]; norm_num
  · rw [hl, e]; decide
  · rw [hf, e]; decide

/-! ## Trailing 7-day moving average (`renderTradeVolume`, app.js
lines 1013–1016)

The JS is

```
const ma7 = values.map((_, i) => {
  const window = values.slice(Math.max(0, i - 6), i + 1);
  return window.reduce((s, v) => s + v, 0) / window.length;
});
```

`values.slice(a, b)` is `(values.drop a).take (b - a)`, and `Math.max(0, i - 6)`
is truncated subtraction `i - 6` on `Nat`. -/

/-- The trailing 7-day simple moving average series. -/
def ma7 (values : List ℚ) : List ℚ :=
  (List.range values.length).map (fun i =>
    let w := (values.drop (i - 6)).take (i + 1 - (i - 6))
    w.sum / (w.length : ℚ))

/-- A contiguous slice of a list, written as its entries indexed over the
sliced index range. -/
theorem drop_take_eq_range'_map (l : List ℚ) :
    ∀ k a, a + k ≤ l.length →
      (l.drop a).take k = (List.range' a k).map (fun j => l.getD j 0) := by
  intro k
  induction k with
  | zero => intro a ha; simp
  | succ k ih =>
    intro a ha
    have halt : a < l.length := by omega
    rw [List.drop_eq_getElem_cons halt, List.take_succ_cons, List.range'_succ,
      List.map_cons]
    congr 1
    · rw [List.getD_eq_getElem l 0 halt]
    · exact ih (a + 1) (by omega)

/-- C9 core: at every index `i` of the series, the moving average is the
mean of the values at indices `max (0, i - 6)` through `i` — the window is
clipped at the start of the series, so early points average over fewer than
7 days. -/
theorem ma7_window_mean (values : List ℚ) (i : Nat) (h : i < values.length) :
    (ma7 values).getD i 0 =
      ((List.range' (i - 6) (i + 1 - (i - 6))).map (fun j => values.getD j 0)).sum /
        ((i + 1 - (i - 6) : Nat) : ℚ) := by
  have hlen : i < (ma7 values).length := by
    simp [ma7, h]
  rw [List.getD_eq_getElem _ _ hlen]
  unfold ma7
  rw [List.getElem_map]
  rw [List.getElem_range]
  have hw := drop_take_eq_range'_map values (i + 1 - (i - 6)) (i - 6) (by omega)
  dsimp only
  rw [hw, List.length_map, List.length_range']

/-- Witness for C9: daily volumes `[10, 20, 30]` give a 3rd-day moving
average of exactly `(10 + 20 + 30) / 3 = 20`. -/
theorem ma7_window_mean_witness : (ma7 [10, 20, 30]).getD 2 0 = 20 := by
  have h := ma7_window_mean [10, 20, 30] 2 (by decide)
  rw [h]
  norm_num [List.range']

/-! ## The aggregator's settle logic (`analyze`, app.js lines 1796–1877)

`analyze` fires the four core paginated fetches with
`fetchAllPages(...).catch(() => [])` and the leaderboard fetch with
`fetchJSON(...).catch(() => [])`, then runs `Promise.allSettled` over those
five already-caught promises and shows the failure message only when every
settle result is `'rejected'`. -/

/-- A promise's settle status as reported by `Promise.allSettled`. -/
inductive PromiseStatus where
  | fulfilled
  | rejected
deriving DecidableEq, Repr

/-- JS `promise.catch(() => [])`: a rejected promise is replaced by one
fulfilled with the empty array. -/
def catchEmpty {β : Type} (p : Except Unit (List β)) : Except Unit (List β) :=
  match p with
  | .error _ => .ok []
  | .ok v => .ok v

/-- The settle status of a promise outcome. -/
def settleStatus {β : Type} : Except Unit β → PromiseStatus
  | .ok _ => .fulfilled
  | .error _ => .rejected

/-- The value a fulfilled outcome delivers to its `.then` continuation
(`d` is unreachable for outcomes produced by `catchEmpty`). -/
def exceptValue {β : Type} (d : β) : Except Unit β → β
  | .ok v => v
  | .error _ => d

/-- The five settle results `analyze` awaits (app.js lines 1865–1867), one
per core endpoint plus the leaderboard.  Each core promise is
`Except.ok (fetchAllPages …)`: the paginator's internal `try/catch` means
its promise is fulfilled no matter what the network does, and the
`.catch(() => [])` wrapper is applied on top exactly as in the source.
`lb` is the outcome of the raw leaderboard `fetchJSON`, which *can*
reject. -/
def analyzeSettledStatuses (posS closedS tradesS actS : Nat → Option (List Nat))
    (lb : Except Unit (List Nat)) : List PromiseStatus :=
  [settleStatus (catchEmpty (Except.ok
      (fetchAllPages configPositions.limit configPositions.maxOffset posS))),
    settleStatus (catchEmpty (Except.ok
      (fetchAllPages configClosedPositions.limit configClosedPositions.maxOffset closedS))),
    settleStatus (catchEmpty (Except.ok
      (fetchAllPages configTrades.limit configTrades.maxOffset tradesS))),
    settleStatus (catchEmpty (Except.ok
      (fetchAllPages configActivity.limit configActivity.maxOffset actS))),
    settleStatus (catchEmpty lb)]

/-- `allFailed` (app.js line 1868): every settle result is `'rejected'`. -/
def analyzeAllFailed (posS closedS tradesS actS : Nat → Option (List Nat))
    (lb : Except Unit (List Nat)) : Bool :=
  (analyzeSettledStatuses posS closedS tradesS actS lb).all (· = .rejected)

/-- Whether `analyze` surfaces the user-visible failure message and
reverts to the entry screen (the `catch` branch, app.js lines 1873–1877):
it does so exactly when `allFailed` holds. -/
def analyzeErrorShown (posS closedS tradesS actS : Nat → Option (List Nat))
    (lb : Except Unit (List Nat)) : Bool :=
  analyzeAllFailed posS closedS tradesS actS lb

/-- The fields of the shared snapshot written by the five `.then`
continuations. -/
structure CoreSnapshot where
  positions : List Nat
  closedPositions : List Nat
  trades : List Nat
  activity : List Nat
  leaderboard : List Nat
deriving DecidableEq, Repr

/-- The snapshot slot (`lastData`) after `analyze` settles: set to a fresh
record on entry (line 1761) and then populated by each continuation; no
code path of `analyze` resets it to `null`, including the error branch. -/
def analyzeFinalSnapshot (posS closedS tradesS actS : Nat → Option (List Nat))
    (lb : Except Unit (List Nat)) : Option CoreSnapshot :=
  some
    { positions := fetchAllPages configPositions.limit configPositions.maxOffset posS
      closedPositions :=
        fetchAllPages configClosedPositions.limit configClosedPositions.maxOffset closedS
      trades := fetchAllPages configTrades.limit configTrades.maxOffset tradesS
      activity := fetchAllPages configActivity.limit configActivity.maxOffset actS
      leaderboard := exceptValue [] (catchEmpty lb) }

/-- A network on which every request rejects. -/
def failServer : Nat → Option (List Nat) := fun _ => none

/-- When every request fails, the paginator resolves with `[]`. -/
theorem fetchAllPages_failServer {α : Type} (limit maxOffset : Nat) :
    fetchAllPages limit maxOffset (fun _ => (none : Option (List α))) = [] := by
  simp [fetchAllPages, fetchPagesFuel]

/-- C1: the failure message can never be shown — each core promise is
pre-caught with `.catch(() => [])` (and `fetchAllPages` never rejects
anyway), so `Promise.allSettled` always reports five `'fulfilled'` results
and `allFailed` is identically `false`.  In particular, when all four core
endpoint fetches (and the leaderboard) reject, no user-visible error is
surfaced, the UI is not reverted to the entry state, and the all-empty
snapshot is retained as current — contradicting the claim and the source's
own comment `/* Wait for all to settle; if ALL fail, show error */`. -/
theorem analyze_total_failure_no_error :
    (∀ posS closedS tradesS actS lb,
        analyzeErrorShown posS closedS tradesS actS lb = false) ∧
      analyzeErrorShown failServer failServer failServer failServer
          (Except.error ()) = false ∧
      analyzeFinalSnapshot failServer failServer failServer failServer
          (Except.error ()) = some ⟨[], [], [], [], []⟩ := by
  have hall : ∀ posS closedS tradesS actS lb,
      analyzeErrorShown posS closedS tradesS actS lb = false := by
    intro posS closedS tradesS actS lb
    simp [analyzeErrorShown, analyzeAllFailed, analyzeSettledStatuses, catchEmpty,
      settleStatus]
  refine ⟨hall, hall failServer failServer failServer failServer (Except.error ()), ?_⟩
  have hf : ∀ limit maxOffset : Nat, fetchAllPages limit maxOffset failServer = [] :=
    fun l m => fetchAllPages_failServer l m
  simp [analyzeFinalSnapshot, hf, catchEmpty, exceptValue]

/-! ## Stale responses across navigation (app.js lines 1804–1822,
1953–1975, 1994–2006)

Switching the viewed address does not cancel in-flight requests, and the
code tags fetch batches with no generation counter.  The `.then`
continuations assign straight into the module-level `lastData` slot, so
what a late (stale) callback does depends only on what the slot holds when
it runs.  We model the navigation events that change the slot and the
`positionsPromise.then` continuation (the other continuations are
symmetric). -/

/-- The shared snapshot slot's contents (`lastData` fields touched here). -/
structure UiSnapshot where
  positions : List Nat
  closedPositions : List Nat
  trades : List Nat
  activity : List Nat
deriving DecidableEq, Repr

/-- The fresh snapshot `analyze` installs (app.js line 1761). -/
def emptyUiSnapshot : UiSnapshot := ⟨[], [], [], []⟩

/-- The slice of UI state involved: the snapshot slot, the address shown in
the dashboard header, and what the active-positions table last rendered
(`none` = skeleton). -/
structure UiState where
  slot : Option UiSnapshot
  dashAddr : String
  renderedPositions : Option (List Nat)
deriving DecidableEq, Repr

/-- A navigation event: `analyze addr` is a lookup of a (new) address via
the load button or a hash-route change to a valid address (app.js
lines 1994–1999, 1753–1774: installs a fresh snapshot and shows
skeletons); `reset` is the explicit back action or a hash-route change to
an empty/invalid hash (lines 1953–1975, 2000–2005: sets `lastData = null`). -/
inductive NavEvent where
  | analyze (addr : String)
  | reset

/-- The effect of a navigation event on the shared state. -/
def navStep : NavEvent → UiState → UiState
  | .analyze a, st => { st with slot := some emptyUiSnapshot, dashAddr := a,
                                renderedPositions := none }
  | .reset, st => { st with slot := none }

/-- The `positionsPromise.then` continuation (app.js lines 1804–1822) as it
acts on the shared state when it eventually runs.  Its first statement is
`lastData.positions = positions`: if a navigation event has reset the slot
to `null`, that assignment throws a `TypeError` and the continuation aborts
before mutating or rendering anything, leaving the state unchanged;
otherwise it writes the batch into whatever snapshot currently occupies the
slot and re-renders the active table from the batch. -/
def positionsCallback (rows : List Nat) (st : UiState) : UiState :=
  match st.slot with
  | some s => { st with slot := some { s with positions := rows },
                        renderedPositions := some rows }
  | none => st

/-- The state after `analyze "0xA"` (which issued a fetch batch for
`"0xA"`) followed by a hash-route change to `"0xB"`: the shared snapshot
slot has been reset to a fresh snapshot for `"0xB"`. -/
def staleStateExample : UiState :=
  navStep (.analyze "0xB") (navStep (.analyze "0xA") ⟨none, "", none⟩)

/-- C2 counterexample: after the hash-route change to `"0xB"` has reset
the shared snapshot slot, the late callback carrying batch `[7]` fetched
for the abandoned address `"0xA"` is *not* discarded — it mutates the
current snapshot (now belonging to `"0xB"`) and the rendered table state.
The code has no generation counter, so the claim fails on this input. -/
theorem stale_callback_mutates_counterexample :
    (positionsCallback [7] staleStateExample).slot ≠ staleStateExample.slot ∧
      (positionsCallback [7] staleStateExample).slot =
        some { emptyUiSnapshot with positions := [7] } ∧
      (positionsCallback [7] staleStateExample).renderedPositions = some [7] ∧
      staleStateExample.dashAddr = "0xB" := by
  decide

/-- C2 amended: only when the navigation event reset the snapshot slot to
`null` (the explicit back action, or a hash-route change to an
empty/invalid hash) is a stale callback harmless — it throws on the null
slot and leaves the state, hence the current snapshot and the rendered
state, unchanged.  After a hash-route change to a *new address*, stale
callbacks are not discarded (see the counterexample). -/
theorem stale_callback_after_reset_discarded (rows : List Nat) (st : UiState)
    (h : st.slot = none) : positionsCallback rows st = st := by
  unfold positionsCallback
  rw [h]

/-- Witness for the amended C2: a stale batch `[7]` arriving after
`analyze "0xA"` followed by the back action leaves the state untouched. -/
theorem stale_callback_after_reset_discarded_witness :
    positionsCallback [7] (navStep .reset (navStep (.analyze "0xA") ⟨none, "", none⟩)) =
      navStep .reset (navStep (.analyze "0xA") ⟨none, "", none⟩) :=
  stale_callback_after_reset_discarded [7] _ (by rfl)

end Polyfolio
